import Mathlib

/-!
Verification of the crudegl model/mesh/texture loading core.

The development is a shallow embedding of the C++ sources under
`src/crudegl/` (vertices.h, meshes.h, textures.h, models.h, utils.h).
Pure computations become Lean functions; the stateful parts of
`AssetModel`/`RawModel` are embedded as explicit state passing over a
record holding the members of the C++ objects, extended with an
allocation counter (modelling the distinct identities handed out by
`std::make_shared`) and an event list (modelling the image reads
performed by `Texture2D::load`, one per `SOIL_load_image` call), so that
instance identity and load counts are observable.  Device (OpenGL) calls
are recorded as events in a trace.
-/

namespace crudegl

/-! ## Vertex attributes and layout installation (vertices.h) -/

/-- GL type tag for float components (`GL_FLOAT`). -/
def GL_FLOAT : Nat := 0x1406

/-- Compile-time description of one vertex attribute, as carried by the
attribute structs in `vertices.h`: `size` is the component count
enumerator, `glType` the GL type enumerator, `typeSize` is
`sizeof(TAttribute::type)` — the byte size of the anonymous `enum`
holding the descriptors, which is 4 (the enum's underlying `int`) —
and `memSize` is the byte size of the attribute struct itself (its glm
vector member). -/
structure AttributeDescriptor where
  size : Nat
  glType : Nat
  typeSize : Nat
  memSize : Nat
  deriving DecidableEq

/-- `attributes::Position`: 3 float components, stored as a `glm::vec3`
(12 bytes). -/
def Position : AttributeDescriptor :=
  { size := 3, glType := GL_FLOAT, typeSize := 4, memSize := 12 }

/-- `attributes::Normal`: 3 float components, stored as a `glm::vec3`
(12 bytes). -/
def Normal : AttributeDescriptor :=
  { size := 3, glType := GL_FLOAT, typeSize := 4, memSize := 12 }

/-- `attributes::TextureCoordinate`: 2 float components, stored as a
`glm::vec2` (8 bytes). -/
def TextureCoordinate : AttributeDescriptor :=
  { size := 2, glType := GL_FLOAT, typeSize := 4, memSize := 8 }

/-- The `data_size` computed by `VertexAttributeInstaller::operator()`:
`TAttribute::size * sizeof(TAttribute::type)`. -/
def dataSize (a : AttributeDescriptor) : Nat := a.size * a.typeSize

/-- `sizeof(TVertex)` for `Vertex<Attrs...>`: the base-class subobjects
(one glm vector each) are laid out consecutively; every attribute struct
defined in the repository has 4-byte alignment and a size that is a
multiple of 4, so no padding is inserted and the size is the sum of the
base sizes. -/
def sizeofVertex (attrs : List AttributeDescriptor) : Nat :=
  (attrs.map (fun a => a.memSize)).sum

/-- One recorded `glVertexAttribPointer`/`glEnableVertexAttribArray`
pair, as issued by `VertexAttributeInstaller::operator()`. -/
structure InstalledAttribute where
  layoutPosition : Nat
  size : Nat
  glType : Nat
  stride : Nat
  offset : Nat
  deriving DecidableEq

/-- `VertexAttributeInstaller::operator()(stride, offset, layout_position)`:
registers the attribute pointer with the given stride and the current
offset, then advances the offset by `data_size`. -/
def installerCall (a : AttributeDescriptor) (stride offset pos : Nat) :
    InstalledAttribute × Nat :=
  ({ layoutPosition := pos, size := a.size, glType := a.glType,
     stride := stride, offset := offset },
   offset + dataSize a)

/-- The pack expansion inside `add_each(offset, index_sequence)`:
invokes the installer once per attribute, left to right, threading the
offset and incrementing the layout position. -/
def addEachGo (stride : Nat) :
    List AttributeDescriptor → Nat → Nat → List InstalledAttribute
  | [], _, _ => []
  | a :: rest, offset, pos =>
      let r := installerCall a stride offset pos
      r.1 :: addEachGo stride rest r.2 (pos + 1)

/-- `add_each<TVertex, VertexAttributeInstaller>()`: starts with offset 0
and layout position 0, passing `sizeof(TVertex)` as the stride to every
installer invocation. -/
def add_each (attrs : List AttributeDescriptor) : List InstalledAttribute :=
  addEachGo (sizeofVertex attrs) attrs 0 0

/-- `DefaultVertex = Vertex<Position, Normal, TextureCoordinate>`. -/
def DefaultVertex : List AttributeDescriptor :=
  [Position, Normal, TextureCoordinate]

/-! ## Path utilities (utils.h, namespace `utils::fs`) -/

/-- Index of the last character of `s` that belongs to `delims`
(`std::string::find_last_of`), `none` for `npos`. -/
def findLastOf (s delims : List Char) : Option Nat :=
  ((s.enum.filter (fun p => delims.contains p.2)).map (fun p => p.1)).getLast?

/-- `utils::fs::dirname`: everything before the last path separator;
`substr(0, npos)` returns the whole string when no separator occurs. -/
def dirname (path : String) : String :=
  match findLastOf path.data ['/', '\\'] with
  | none => path
  | some i => ⟨path.data.take i⟩

/-- `utils::fs::basename`: everything after the last path separator;
when no separator occurs, `find_last_of` yields `npos` and
`npos + 1` wraps to 0, so the whole string is returned. -/
def basename (path : String) : String :=
  match findLastOf path.data ['/', '\\'] with
  | none => path
  | some i => ⟨path.data.drop (i + 1)⟩

/-- `utils::fs::noextension`: drops the suffix starting at the last dot,
unless the dot is at position 0 or absent. -/
def noextension (filename : String) : String :=
  match findLastOf filename.data ['.'] with
  | none => filename
  | some p => if 0 < p then ⟨filename.data.take p⟩ else filename

/-- `utils::fs::join`: `base + PATH_SEPARATOR + path` (non-Windows
separator). -/
def fsJoin (base path : String) : String := base ++ "/" ++ path

/-! ## Textures (textures.h)

A `std::shared_ptr<Texture2D>` instance is embedded as a record carrying
a distinct allocation `id` (shared-pointer identity: two references are
the same instance iff their `id`s are equal) together with the data
members relevant to the claims. -/

/-- One `Texture2D` instance created by `std::make_shared<texture_type>`.
`path` is the string the cache keys it by (the material-provided path
for `AssetModel`, the caller-provided path for `RawModel`), `fullpath`
is the constructor argument `m_path` (for `AssetModel` the join of the
model's parent directory with `path`), and `name` is `m_name`, defaulted
to `noextension(basename(m_path))` when constructed with an empty
name. -/
structure TexInstance where
  id : Nat
  path : String
  fullpath : String
  name : String
  deriving DecidableEq

/-! ## Device events

GL calls issued while rendering are recorded as a trace.  Texture GL
handles are identified by the owning instance's allocation `id`. -/

/-- Base texture unit enumerator (`GL_TEXTURE0`). -/
def GL_TEXTURE0 : Nat := 0x84C0

/-- One recorded OpenGL call. -/
inductive GLEvent : Type where
  | bindTexture (unit : Nat) (texId : Nat)
  | setUniform (program : Nat) (name : String) (value : Nat)
  | bindVertexArray (handle : Nat)
  | drawElements (count : Nat)
  | drawArrays (count : Nat)
  | unbindTexture (unit : Nat)
  deriving DecidableEq

/-! ## Mesh (meshes.h) -/

/-- The data members of `Mesh`: the three GPU handles, the two element
counts recorded at construction, and the owned list of shared texture
references. -/
structure MeshData where
  m_vao : Nat
  m_vbo : Nat
  m_ebo : Nat
  m_vertex_count : Nat
  m_index_count : Nat
  m_textures : List TexInstance
  deriving DecidableEq

/-- The `Mesh` constructor: records `vertices.size()` and
`indices.size()`, takes ownership of the texture list, and generates a
vertex array and a vertex buffer; the element buffer is generated only
when `m_index_count > 0` and stays 0 otherwise.  `glNext` models the
device's handle allocator (`glGen*`); the new counter value is returned
alongside the constructed mesh. -/
def meshConstruct {α : Type} (vertices : List α) (indices : List Nat)
    (textures : List TexInstance) (glNext : Nat) : MeshData × Nat :=
  if indices.length > 0 then
    ({ m_vao := glNext, m_vbo := glNext + 1, m_ebo := glNext + 2,
       m_vertex_count := vertices.length, m_index_count := indices.length,
       m_textures := textures }, glNext + 3)
  else
    ({ m_vao := glNext, m_vbo := glNext + 1, m_ebo := 0,
       m_vertex_count := vertices.length, m_index_count := indices.length,
       m_textures := textures }, glNext + 2)

/-- `Mesh::bind_textures`: for each texture at position `i`, bind it to
unit `GL_TEXTURE0 + i` and set the sampler uniform named by the
texture's shader name to `i`. -/
def bind_textures (program : Nat) (ts : List TexInstance) : List GLEvent :=
  ts.enum.flatMap fun p =>
    [GLEvent.bindTexture (GL_TEXTURE0 + p.1) p.2.id,
     GLEvent.setUniform program p.2.name p.1]

/-- `Mesh::draw_mesh`: bind the vertex array, then an indexed draw of
`m_index_count` primitives when `m_index_count > 0`, otherwise a
non-indexed draw of `m_vertex_count` vertices, then unbind. -/
def draw_mesh (md : MeshData) : List GLEvent :=
  [GLEvent.bindVertexArray md.m_vao]
    ++ (if md.m_index_count > 0 then [GLEvent.drawElements md.m_index_count]
        else [GLEvent.drawArrays md.m_vertex_count])
    ++ [GLEvent.bindVertexArray 0]

/-- `Mesh::unbind_textures`: unbind every used unit. -/
def unbind_textures (ts : List TexInstance) : List GLEvent :=
  (List.range ts.length).map fun i => GLEvent.unbindTexture (GL_TEXTURE0 + i)

/-- `Mesh::render(program)`: bind textures, draw, unbind textures. -/
def meshRender (program : Nat) (md : MeshData) : List GLEvent :=
  bind_textures program md.m_textures ++ draw_mesh md
    ++ unbind_textures md.m_textures

/-- The defaulted move constructor `Mesh(Mesh&&) = default`: memberwise
move.  The scalar members — the three GPU handles and the two counts —
are copied and left unchanged in the source; the texture vector is moved
out, leaving the source's vector empty.  Returns
`(destination, moved-from source)`. -/
def meshMoveConstruct (src : MeshData) : MeshData × MeshData :=
  (src, { src with m_textures := [] })

/-- The defaulted destructor `virtual ~Mesh() = default`: its body is
empty, so it issues no device calls (in particular it deletes no vertex
array and no buffer). -/
def meshDestructorCalls (_md : MeshData) : List GLEvent := []

/-! ## Scene data (the assimp structures, as consumed by models.h) -/

/-- `aiMaterial`, restricted to the two texture stacks the loader
queries: `GetTextureCount`/`GetTexture` for `aiTextureType_DIFFUSE` and
`aiTextureType_SPECULAR` enumerate these path lists in order. -/
structure AIMaterial where
  diffuse : List String
  specular : List String
  deriving DecidableEq

/-- `aiMesh`: vertex count, faces (each an ordered index list), and the
material slot index. -/
structure AIMesh where
  mNumVertices : Nat
  mFaces : List (List Nat)
  mMaterialIndex : Nat
  deriving DecidableEq

/-- Fallback for out-of-range raw accesses into the scene's arrays. -/
def emptyAIMesh : AIMesh := { mNumVertices := 0, mFaces := [], mMaterialIndex := 0 }

/-- Fallback for out-of-range raw accesses into the material array. -/
def emptyAIMaterial : AIMaterial := { diffuse := [], specular := [] }

mutual

/-- `aiNode`: the node's mesh indices and its children. -/
inductive AINode : Type where
  | node (mMeshes : List Nat) (mChildren : AINodeList)

/-- The `mChildren` array of an `aiNode`. -/
inductive AINodeList : Type where
  | nil
  | cons (head : AINode) (tail : AINodeList)

end

/-- `aiScene`: flags, optional root node (`none` models a null
`mRootNode`), the mesh array, and the material array. -/
structure AIScene where
  mFlags : Nat
  mRootNode : Option AINode
  mMeshes : List AIMesh
  mMaterials : List AIMaterial

/-- `AI_SCENE_FLAGS_INCOMPLETE`. -/
def AI_SCENE_FLAGS_INCOMPLETE : Nat := 1

/-! ## Models (models.h) -/

/-- `model_error`: carries the offending path and the message. -/
structure ModelError where
  path : String
  message : String
  deriving DecidableEq

/-- The data members of `AssetModel`, extended with the allocation
counter `nextTexId` (identities handed out by `std::make_shared`) and
the trace `imageLoads` (one entry, the texture's `m_path`, per
`SOIL_load_image` call performed by `Texture2D::load`), plus the device
handle counter `glNext` consumed by mesh construction. -/
structure AssetModel where
  m_loaded : Bool
  m_path : String
  m_parentdir : String
  m_meshes : List MeshData
  m_loaded_textures : List (String × TexInstance)
  nextTexId : Nat
  imageLoads : List String
  glNext : Nat

/-- The `AssetModel` constructor: stores the path, derives the parent
directory, and starts unloaded with empty members. -/
def AssetModel.new (path : String) : AssetModel :=
  { m_loaded := false, m_path := path, m_parentdir := dirname path,
    m_meshes := [], m_loaded_textures := [], nextTexId := 0,
    imageLoads := [], glNext := 1 }

/-- `std::unordered_map::find` over the embedded cache. -/
def lookupTexture (cache : List (String × TexInstance)) (p : String) :
    Option TexInstance :=
  match cache with
  | [] => none
  | (k, v) :: rest => if k = p then some v else lookupTexture rest p

/-- The cache-miss branch of `AssetModel::load_textures`: construct a
new shared `Texture2D` from the parent directory joined with the path,
`load()` it (recording the image read of its `m_path`), and insert it
into `m_loaded_textures` keyed by the material-provided path.  Returns
the updated state and the new instance. -/
def texMiss (m : AssetModel) (p : String) : AssetModel × TexInstance :=
  let fullpath := fsJoin m.m_parentdir p
  let inst : TexInstance :=
    { id := m.nextTexId, path := p, fullpath := fullpath,
      name := noextension (basename fullpath) }
  ({ m with nextTexId := m.nextTexId + 1,
            imageLoads := m.imageLoads ++ [fullpath],
            m_loaded_textures := m.m_loaded_textures ++ [(p, inst)] },
   inst)

/-- `AssetModel::load_textures(material, type, textures)`, specialised to
the path list the material reports for one texture type: for each path,
look it up in `m_loaded_textures`; on a miss run `texMiss` and append
the new instance to the output; on a hit append the cached instance. -/
def load_textures (m : AssetModel) (paths : List String)
    (textures : List TexInstance) : AssetModel × List TexInstance :=
  match paths with
  | [] => (m, textures)
  | p :: ps =>
    match lookupTexture m.m_loaded_textures p with
    | none =>
        let r := texMiss m p
        load_textures r.1 ps (textures ++ [r.2])
    | some inst => load_textures m ps (textures ++ [inst])

/-- `AssetModel::collect_textures`: only when `mMaterialIndex > 0`, look
the material up and load its diffuse then its specular textures into one
list. -/
def collect_textures (scene : AIScene) (rm : AIMesh) (m : AssetModel) :
    AssetModel × List TexInstance :=
  if rm.mMaterialIndex > 0 then
    let material := scene.mMaterials.getD rm.mMaterialIndex emptyAIMaterial
    let r1 := load_textures m material.diffuse []
    load_textures r1.1 material.specular r1.2
  else (m, [])

/-- `AssetModel::collect_vertices`: one vertex per index in range, each
built by the vertex constructor from `(raw_mesh, i)`; the embedding
records the construction index. -/
def collect_vertices (rm : AIMesh) : List Nat :=
  List.range rm.mNumVertices

/-- `AssetModel::collect_indices`: flatten all faces' index lists in
face order, then within-face order. -/
def collect_indices (rm : AIMesh) : List Nat :=
  rm.mFaces.flatMap fun f => f

/-- `AssetModel::process_mesh`: collect vertices, indices and textures,
then construct the `Mesh`. -/
def process_mesh (scene : AIScene) (rm : AIMesh) (m : AssetModel) :
    AssetModel × MeshData :=
  let vertices := collect_vertices rm
  let indices := collect_indices rm
  let r := collect_textures scene rm m
  let c := meshConstruct vertices indices r.2 r.1.glNext
  ({ r.1 with glNext := c.2 }, c.1)

/-- `m_meshes.push_back(...)`: append one processed mesh to the model's
mesh list. -/
def pushMesh (m : AssetModel) (md : MeshData) : AssetModel :=
  { m with m_meshes := m.m_meshes ++ [md] }

/-- The first loop of `AssetModel::process_node`: for each mesh index of
the node, process the raw mesh `scene->mMeshes[mesh_index]` and push the
result onto `m_meshes`. -/
def process_meshes (scene : AIScene) : List Nat → AssetModel → AssetModel
  | [], m => m
  | i :: rest, m =>
      let rm := scene.mMeshes.getD i emptyAIMesh
      let r := process_mesh scene rm m
      process_meshes scene rest (pushMesh r.1 r.2)

mutual

/-- `AssetModel::process_node`: process all meshes of the current node,
then recurse into the children in index order. -/
def process_node (scene : AIScene) : AINode → AssetModel → AssetModel
  | .node meshIndices children, m =>
      process_children scene children (process_meshes scene meshIndices m)

/-- The second loop of `AssetModel::process_node`, over the children. -/
def process_children (scene : AIScene) : AINodeList → AssetModel → AssetModel
  | .nil, m => m
  | .cons c cs, m => process_children scene cs (process_node scene c m)

end

/-- `AssetModel::load_model`: run the importer on `m_path` (`imported`
is its result; `none` models a null scene pointer), reject a null scene,
an `mFlags` equal to `AI_SCENE_FLAGS_INCOMPLETE`, or a null root node
with a `model_error`, and otherwise traverse from the root.  The state
at the moment of a throw is returned alongside the error. -/
def load_model (m : AssetModel) (imported : Option AIScene) :
    AssetModel × Option ModelError :=
  match imported with
  | none => (m, some { path := m.m_path, message := "Cannot load model." })
  | some scene =>
    if scene.mFlags = AI_SCENE_FLAGS_INCOMPLETE then
      (m, some { path := m.m_path, message := "Cannot load model." })
    else
      match scene.mRootNode with
      | none => (m, some { path := m.m_path, message := "Cannot load model." })
      | some root => (process_node scene root m, none)

/-- `AssetModel::load`: when not yet loaded, run `load_model` and set
`m_loaded` afterwards; a thrown error propagates before the flag
assignment executes. -/
def AssetModel.load (m : AssetModel) (imported : Option AIScene) :
    AssetModel × Option ModelError :=
  if m.m_loaded then (m, none)
  else
    match load_model m imported with
    | (m', none) => ({ m' with m_loaded := true }, none)
    | (m', some e) => (m', some e)

/-- `AssetModel::render(program)`: throw a `model_error` carrying
`m_path` when `m_loaded` is false — issuing no device call — and
otherwise render every mesh in list order with the same program. -/
def AssetModel.render (m : AssetModel) (program : Nat) :
    Except ModelError (List GLEvent) :=
  if m.m_loaded then
    Except.ok (m.m_meshes.flatMap (meshRender program))
  else
    Except.error { path := m.m_path, message := "Model not loaded before rendering." }

/-! ## RawModel (models.h) -/

/-- The data members of `RawModel` (the `m_loaded_textures` member is
declared but never touched by any `RawModel` code path), with the same
instrumentation as `AssetModel`. -/
structure RawModel where
  m_meshes : List MeshData
  m_loaded_textures : List (String × TexInstance)
  nextTexId : Nat
  imageLoads : List String
  glNext : Nat

/-- The texture loop of the `RawModel` constructor: for each path, in
order, construct a fresh shared `Texture2D` from the path itself (no
join, no cache lookup) and `load()` it.  Returns the instances, the
next free allocation id, and the image-read trace. -/
def rawLoadTextures : List String → Nat → List TexInstance × Nat × List String
  | [], nid => ([], nid, [])
  | p :: ps, nid =>
      let inst : TexInstance :=
        { id := nid, path := p, fullpath := p,
          name := noextension (basename p) }
      let r := rawLoadTextures ps (nid + 1)
      (inst :: r.1, r.2.1, p :: r.2.2)

/-- The `RawModel` constructor: load one fresh texture per path, then
build exactly one `Mesh` from the full vertex and index arrays and the
texture list. -/
def RawModel.new {α : Type} (vertices : List α) (indices : List Nat)
    (texture_paths : List String) : RawModel :=
  let r := rawLoadTextures texture_paths 0
  let c := meshConstruct vertices indices r.1 1
  { m_meshes := [c.1], m_loaded_textures := [], nextTexId := r.2.1,
    imageLoads := r.2.2, glNext := c.2 }

/-- `RawModel::load`: the body is empty. -/
def RawModel.load (m : RawModel) : RawModel := m

/-- `RawModel::render(program)`: renders every mesh with the given
program, unconditionally. -/
def RawModel.render (m : RawModel) (program : Nat) : List GLEvent :=
  m.m_meshes.flatMap (meshRender program)

/-! ## Reference definitions written from the spec's words

These are the comparison side for the refinement-style claims: they are
derived from the specification text, not from the implementation. -/

mutual

/-- Spec, §4.3: pre-order depth-first traversal — the current node's
mesh indices in index order, then each child's subtree fully, siblings
in index order. -/
def specPreorder : AINode → List Nat
  | .node meshIndices children => meshIndices ++ specPreorderList children

/-- Pre-order traversal of a child list, left to right. -/
def specPreorderList : AINodeList → List Nat
  | .nil => []
  | .cons c cs => specPreorder c ++ specPreorderList cs

end

/-- The observable geometry of a constructed mesh: its recorded vertex
and index counts. -/
def meshGeo (md : MeshData) : Nat × Nat := (md.m_vertex_count, md.m_index_count)

/-- Spec, §4.3: the geometry a raw sub-mesh contributes — its vertex
count and its faces' index lists flattened in face order then
within-face order. -/
def specRawGeo (scene : AIScene) (i : Nat) : Nat × Nat :=
  let rm := scene.mMeshes.getD i emptyAIMesh
  (rm.mNumVertices, (rm.mFaces.flatMap fun f => f).length)

/-! ## Invariants and fallback values used by the statements -/

/-- Fallback for indexing into installed-attribute lists. -/
def noInstall : InstalledAttribute :=
  { layoutPosition := 0, size := 0, glType := 0, stride := 0, offset := 0 }

/-- Fallback for indexing into mesh lists. -/
def emptyMeshData : MeshData :=
  { m_vao := 0, m_vbo := 0, m_ebo := 0, m_vertex_count := 0,
    m_index_count := 0, m_textures := [] }

/-- Fallback for indexing into texture lists. -/
def emptyTexInstance : TexInstance :=
  { id := 0, path := "", fullpath := "", name := "" }

/-- Well-formedness of the texture cache of an `AssetModel`: the cache
keys are pairwise distinct, the image-read trace lists exactly the
cached instances' paths in insertion order, and every cache entry stores
an instance keyed by its own material path whose constructor path is the
parent directory joined with that key. -/
def CacheWF (m : AssetModel) : Prop :=
  (m.m_loaded_textures.map Prod.fst).Nodup ∧
  m.imageLoads = m.m_loaded_textures.map (fun e => e.2.fullpath) ∧
  ∀ e ∈ m.m_loaded_textures, e.2.path = e.1 ∧ e.2.fullpath = fsJoin m.m_parentdir e.1

/-- Every texture instance held by any built mesh is exactly the
instance the cache associates to its path. -/
def MeshesWF (m : AssetModel) : Prop :=
  ∀ md ∈ m.m_meshes, ∀ t ∈ md.m_textures,
    lookupTexture m.m_loaded_textures t.path = some t

/-- The cache only grows during loading, and the identity-relevant
fields of the model are untouched. -/
def CacheExtends (m m' : AssetModel) : Prop :=
  (∃ ext, m'.m_loaded_textures = m.m_loaded_textures ++ ext) ∧
  m'.m_parentdir = m.m_parentdir ∧ m'.m_path = m.m_path

/-- A concrete scene whose two sub-meshes reference the same diffuse
texture path through two different materials. -/
def sharedTexScene : AIScene :=
  { mFlags := 0,
    mRootNode := some (.node [0, 1] .nil),
    mMeshes := [ { mNumVertices := 3, mFaces := [[0, 1, 2]], mMaterialIndex := 1 },
                 { mNumVertices := 3, mFaces := [[0, 1, 2]], mMaterialIndex := 2 } ],
    mMaterials := [ emptyAIMaterial,
                    { diffuse := ["tex.png"], specular := [] },
                    { diffuse := ["tex.png"], specular := [] } ] }

/-- The model obtained by loading `sharedTexScene`. -/
def sharedTexModel : AssetModel :=
  ((AssetModel.new "assets/model.obj").load (some sharedTexScene)).1

/-- A concrete scene matching the spec's traversal example: a root with
two meshes and one child with one mesh. -/
def preorderScene : AIScene :=
  { mFlags := 0,
    mRootNode := some (.node [0, 1] (.cons (.node [2] .nil) .nil)),
    mMeshes := [ { mNumVertices := 4, mFaces := [[0, 1, 2]], mMaterialIndex := 0 },
                 { mNumVertices := 5, mFaces := [[0, 1, 2], [2, 3, 0]], mMaterialIndex := 0 },
                 { mNumVertices := 6, mFaces := [[0, 2, 1]], mMaterialIndex := 0 } ],
    mMaterials := [] }

/-! ## Layout installation lemmas (C1) -/

theorem addEachGo_stride (stride : Nat) :
    ∀ (attrs : List AttributeDescriptor) (offset pos : Nat),
      ∀ ins ∈ addEachGo stride attrs offset pos, ins.stride = stride := by
  intro attrs
  induction attrs with
  | nil => intro offset pos ins h; simp [addEachGo] at h
  | cons a rest ih =>
      intro offset pos ins h
      simp only [addEachGo, installerCall, List.mem_cons] at h
      rcases h with h | h
      · subst h; rfl
      · exact ih _ _ ins h

theorem addEachGo_offset (stride : Nat) :
    ∀ (attrs : List AttributeDescriptor) (offset pos k : Nat), k < attrs.length →
      ((addEachGo stride attrs offset pos).getD k noInstall).offset
        = offset + ((attrs.take k).map dataSize).sum := by
  intro attrs
  induction attrs with
  | nil => intro _ _ k hk; simp at hk
  | cons a rest ih =>
      intro offset pos k hk
      cases k with
      | zero => simp [addEachGo, installerCall]
      | succ k =>
          have hk' : k < rest.length := by simpa using hk
          have hrec := ih (offset + dataSize a) (pos + 1) k hk'
          simp only [addEachGo, installerCall, List.getD_cons_succ] at hrec ⊢
          rw [hrec]
          simp [Nat.add_assoc]

theorem sizeofVertex_eq_sum (attrs : List AttributeDescriptor)
    (h : ∀ a ∈ attrs, a = Position ∨ a = Normal ∨ a = TextureCoordinate) :
    sizeofVertex attrs = (attrs.map dataSize).sum := by
  induction attrs with
  | nil => rfl
  | cons a rest ih =>
      have ha : a.memSize = dataSize a := by
        rcases h a (by simp) with h1 | h1 | h1 <;> subst h1 <;> rfl
      have hrest := ih fun b hb => h b (by simp [hb])
      simp only [sizeofVertex, List.map_cons, List.sum_cons] at hrest ⊢
      rw [ha, hrest]

/-- Claim C1: for every vertex layout over the attribute kinds the
program defines, the installer computes each attribute's offset by a
left-to-right fold — offset of the first attribute is 0 and offset of
the k-th is the sum of the sizes of the attributes before it, with
size = component count times component byte size — and passes every
attribute the same stride, the sum of all attribute sizes (tight
packing, no padding). -/
theorem vertex_layout_offsets_and_stride (attrs : List AttributeDescriptor)
    (h : ∀ a ∈ attrs, a = Position ∨ a = Normal ∨ a = TextureCoordinate) :
    (∀ ins ∈ add_each attrs, ins.stride = (attrs.map dataSize).sum) ∧
    ∀ k, k < attrs.length →
      ((add_each attrs).getD k noInstall).offset
        = ((attrs.take k).map dataSize).sum := by
  constructor
  · intro ins hins
    have hs := addEachGo_stride (sizeofVertex attrs) attrs 0 0 ins hins
    rw [hs, sizeofVertex_eq_sum attrs h]
  · intro k hk
    have ho := addEachGo_offset (sizeofVertex attrs) attrs 0 0 k hk
    simpa using ho

/-- Witness for C1 at the program's `DefaultVertex` layout: offsets
0, 12, 24 and stride 32 for all three attributes. -/
theorem vertex_layout_offsets_and_stride_witness :
    (∀ ins ∈ add_each DefaultVertex, ins.stride = 32) ∧
    ((add_each DefaultVertex).getD 0 noInstall).offset = 0 ∧
    ((add_each DefaultVertex).getD 1 noInstall).offset = 12 ∧
    ((add_each DefaultVertex).getD 2 noInstall).offset = 24 := by
  have h := vertex_layout_offsets_and_stride DefaultVertex (by decide)
  refine ⟨?_, ?_, ?_, ?_⟩
  · intro ins hins; rw [h.1 ins hins]; decide
  · rw [h.2 0 (by decide)]; decide
  · rw [h.2 1 (by decide)]; decide
  · rw [h.2 2 (by decide)]; decide

/-! ## Mesh construction and drawing (C7) -/

theorem meshConstruct_fields {α : Type} (v : List α) (i : List Nat)
    (t : List TexInstance) (g : Nat) :
    (meshConstruct v i t g).1.m_textures = t ∧
    (meshConstruct v i t g).1.m_vertex_count = v.length ∧
    (meshConstruct v i t g).1.m_index_count = i.length ∧
    (meshConstruct v i t g).1.m_vao = g := by
  unfold meshConstruct
  split <;> exact ⟨rfl, rfl, rfl, rfl⟩

/-- Claim C7: a mesh constructed with a non-empty index array draws
indexed with primitive count equal to the index array length; one
constructed with an empty index array draws non-indexed with primitive
count equal to the vertex array length. -/
theorem mesh_draw_primitive_count {α : Type} (vertices : List α)
    (indices : List Nat) (textures : List TexInstance) (glNext : Nat) :
    (indices ≠ [] →
      draw_mesh (meshConstruct vertices indices textures glNext).1 =
        [GLEvent.bindVertexArray glNext, GLEvent.drawElements indices.length,
         GLEvent.bindVertexArray 0]) ∧
    (indices = [] →
      draw_mesh (meshConstruct vertices indices textures glNext).1 =
        [GLEvent.bindVertexArray glNext, GLEvent.drawArrays vertices.length,
         GLEvent.bindVertexArray 0]) := by
  constructor
  · intro h
    have hlen : 0 < indices.length := List.length_pos.mpr h
    simp [meshConstruct, draw_mesh, hlen]
  · intro h
    subst h
    simp [meshConstruct, draw_mesh]

/-- Witness for C7: an indexed mesh with 6 indices draws 6 primitives;
the same vertices with no indices draw 3 primitives. -/
theorem mesh_draw_primitive_count_witness :
    draw_mesh (meshConstruct [10, 20, 30] [0, 1, 2, 2, 1, 0] [] 1).1 =
      [GLEvent.bindVertexArray 1, GLEvent.drawElements 6,
       GLEvent.bindVertexArray 0] ∧
    draw_mesh (meshConstruct [10, 20, 30] ([] : List Nat) [] 1).1 =
      [GLEvent.bindVertexArray 1, GLEvent.drawArrays 3,
       GLEvent.bindVertexArray 0] := by
  constructor
  · have h := (mesh_draw_primitive_count [10, 20, 30] [0, 1, 2, 2, 1, 0] [] 1).1
      (by decide)
    simpa using h
  · have h := (mesh_draw_primitive_count [10, 20, 30] ([] : List Nat) [] 1).2 rfl
    simpa using h

/-! ## Mesh move semantics (C9) -/

/-- Claim C9, counterexample: moving a mesh whose handles are 5, 6, 7
does not zero the source's handles — the defaulted move constructor
copies the scalar members and leaves the source's values unchanged. -/
theorem mesh_move_zeroing_counterexample :
    ¬ ((meshMoveConstruct
          { m_vao := 5, m_vbo := 6, m_ebo := 7, m_vertex_count := 3,
            m_index_count := 3, m_textures := [] }).2.m_vao = 0 ∧
       (meshMoveConstruct
          { m_vao := 5, m_vbo := 6, m_ebo := 7, m_vertex_count := 3,
            m_index_count := 3, m_textures := [] }).2.m_vbo = 0 ∧
       (meshMoveConstruct
          { m_vao := 5, m_vbo := 6, m_ebo := 7, m_vertex_count := 3,
            m_index_count := 3, m_textures := [] }).2.m_ebo = 0) := by
  decide

/-- Claim C9 amended: moving a mesh copies the GPU handles to the
destination and leaves the source's vertex-array, vertex-buffer and
index-buffer handle values unchanged (the move operations are
compiler-defaulted); destruction of the moved-from mesh — indeed of any
mesh — performs no GPU resource deletion, because the destructor is
defaulted and issues no device call. -/
theorem mesh_move_defaulted (src : MeshData) :
    (meshMoveConstruct src).1 = src ∧
    (meshMoveConstruct src).2.m_vao = src.m_vao ∧
    (meshMoveConstruct src).2.m_vbo = src.m_vbo ∧
    (meshMoveConstruct src).2.m_ebo = src.m_ebo ∧
    meshDestructorCalls (meshMoveConstruct src).2 = [] :=
  ⟨rfl, rfl, rfl, rfl, rfl⟩

/-! ## Material slot 0 (C10) -/

/-- Claim C10: a sub-mesh whose material index is 0 gets an empty
texture list — `collect_textures` only performs a material lookup when
the index is strictly positive, and the state is untouched. -/
theorem material_slot_zero_no_textures (scene : AIScene) (rm : AIMesh)
    (m : AssetModel) (h : rm.mMaterialIndex = 0) :
    collect_textures scene rm m = (m, []) ∧
    (process_mesh scene rm m).2.m_textures = [] := by
  have hc : collect_textures scene rm m = (m, []) := by
    simp [collect_textures, h]
  refine ⟨hc, ?_⟩
  simp only [process_mesh, hc]
  exact (meshConstruct_fields _ _ _ _).1

/-- Witness for C10 at a concrete sub-mesh referencing material slot 0. -/
theorem material_slot_zero_no_textures_witness :
    collect_textures sharedTexScene
        { mNumVertices := 3, mFaces := [[0, 1, 2]], mMaterialIndex := 0 }
        (AssetModel.new "a/b.obj")
      = (AssetModel.new "a/b.obj", []) :=
  (material_slot_zero_no_textures sharedTexScene
    { mNumVertices := 3, mFaces := [[0, 1, 2]], mMaterialIndex := 0 }
    (AssetModel.new "a/b.obj") rfl).1

/-! ## Render-before-load (C6) -/

/-- Claim C6: rendering an `AssetModel` that is not loaded fails with a
"not loaded" `model_error` carrying the model's path and produces no
device call; rendering a loaded one renders every mesh in list order,
passing the same program to each. -/
theorem render_not_loaded_error (m : AssetModel) (program : Nat) :
    (m.m_loaded = false →
      m.render program =
        Except.error { path := m.m_path,
                       message := "Model not loaded before rendering." }) ∧
    (m.m_loaded = true →
      m.render program = Except.ok (m.m_meshes.flatMap (meshRender program))) := by
  constructor <;> intro h <;> simp [AssetModel.render, h]

/-- Witness for C6: a freshly constructed model errors with its own
path; the same model with the loaded flag set renders its (empty) mesh
list. -/
theorem render_not_loaded_error_witness :
    (AssetModel.new "dir/m.obj").render 7 =
      Except.error { path := "dir/m.obj",
                     message := "Model not loaded before rendering." } ∧
    ({ AssetModel.new "dir/m.obj" with m_loaded := true }).render 7 =
      Except.ok [] := by
  constructor
  · exact (render_not_loaded_error (AssetModel.new "dir/m.obj") 7).1 rfl
  · have h := (render_not_loaded_error
      { AssetModel.new "dir/m.obj" with m_loaded := true } 7).2 rfl
    simpa using h

/-! ## RawModel (C8) -/

theorem rawLoadTextures_spec (paths : List String) : ∀ nid : Nat,
    ((rawLoadTextures paths nid).1.map fun t => t.path) = paths ∧
    ((rawLoadTextures paths nid).1.map fun t => t.id)
      = List.range' nid paths.length ∧
    (rawLoadTextures paths nid).2.2 = paths := by
  induction paths with
  | nil => intro nid; exact ⟨rfl, rfl, rfl⟩
  | cons p ps ih =>
      intro nid
      have h := ih (nid + 1)
      simp only [rawLoadTextures, List.map_cons, List.length_cons,
        List.range'_succ]
      exact ⟨by rw [h.1], by rw [h.2.1], by rw [h.2.2]⟩

/-- Claim C8: a `RawModel` built from vertices, indices and texture
paths holds exactly one mesh whose vertex count is the number of
vertices and whose index count is the number of indices, with one
freshly constructed-and-loaded texture per path in order — the
allocation ids are pairwise distinct even when two paths are identical,
and every path is image-loaded, so there is no path-based
deduplication; `load()` is a no-op and `render(program)` always renders
the mesh list. -/
theorem rawmodel_construct {α : Type} (vertices : List α) (indices : List Nat)
    (texture_paths : List String) :
    (RawModel.new vertices indices texture_paths).m_meshes.length = 1 ∧
    ((RawModel.new vertices indices texture_paths).m_meshes.map
        fun md => md.m_vertex_count) = [vertices.length] ∧
    ((RawModel.new vertices indices texture_paths).m_meshes.map
        fun md => md.m_index_count) = [indices.length] ∧
    ((RawModel.new vertices indices texture_paths).m_meshes.map
        fun md => md.m_textures.map fun t => t.path) = [texture_paths] ∧
    ((RawModel.new vertices indices texture_paths).m_meshes.map
        fun md => md.m_textures.map fun t => t.id)
      = [List.range texture_paths.length] ∧
    ((((RawModel.new vertices indices texture_paths).m_meshes.flatMap
        fun md => md.m_textures).map fun t => t.id)).Nodup ∧
    (RawModel.new vertices indices texture_paths).imageLoads = texture_paths ∧
    RawModel.load (RawModel.new vertices indices texture_paths)
      = RawModel.new vertices indices texture_paths ∧
    ∀ program,
      RawModel.render (RawModel.new vertices indices texture_paths) program
        = (RawModel.new vertices indices texture_paths).m_meshes.flatMap
            (meshRender program) := by
  have hr := rawLoadTextures_spec texture_paths 0
  have hm := meshConstruct_fields vertices indices
    (rawLoadTextures texture_paths 0).1 1
  have hrange : List.range' 0 texture_paths.length
      = List.range texture_paths.length := (List.range_eq_range' _).symm
  refine ⟨rfl, ?_, ?_, ?_, ?_, ?_, ?_, rfl, fun program => rfl⟩
  · simp only [RawModel.new, List.map_cons, List.map_nil, hm.2.1]
  · simp only [RawModel.new, List.map_cons, List.map_nil, hm.2.2.1]
  · simp only [RawModel.new, List.map_cons, List.map_nil, hm.1, hr.1]
  · simp only [RawModel.new, List.map_cons, List.map_nil, hm.1, hr.2.1, hrange]
  · simp only [RawModel.new, List.flatMap_cons, List.flatMap_nil,
      List.append_nil, hm.1, hr.2.1, hrange]
    exact List.nodup_range _
  · simp only [RawModel.new, hr.2.2]

/-! ## Load failure atomicity (C3) -/

/-- Claim C3: every failing load of a fresh `AssetModel` leaves the
model with an empty mesh list and the loaded flag unset — in the code,
the only throwing check precedes any mesh being committed. -/
theorem load_failure_leaves_model_empty (path : String)
    (imported : Option AIScene) (e : ModelError)
    (h : ((AssetModel.new path).load imported).2 = some e) :
    ((AssetModel.new path).load imported).1.m_meshes = [] ∧
    ((AssetModel.new path).load imported).1.m_loaded = false := by
  rcases imported with _ | scene
  · simp [AssetModel.load, load_model, AssetModel.new]
  · by_cases hf : scene.mFlags = AI_SCENE_FLAGS_INCOMPLETE
    · simp [AssetModel.load, load_model, AssetModel.new, hf]
    · rcases hr : scene.mRootNode with _ | root
      · simp [AssetModel.load, load_model, AssetModel.new, hf, hr]
      · exfalso
        simp [AssetModel.load, load_model, AssetModel.new, hf, hr] at h

/-- Witness for C3: importing a null scene fails and leaves the fresh
model untouched. -/
theorem load_failure_leaves_model_empty_witness :
    ((AssetModel.new "a/b.obj").load none).1.m_meshes = [] ∧
    ((AssetModel.new "a/b.obj").load none).1.m_loaded = false :=
  load_failure_leaves_model_empty "a/b.obj" none
    { path := "a/b.obj", message := "Cannot load model." } (by decide)

/-! ## Load idempotence (C4) -/

/-- Claim C4: after a successful `load()`, the loaded flag is set and a
second `load()` — with any importer outcome, since the importer is not
even consulted — is a no-op that returns the state unchanged; in
particular the mesh list after the second call equals the mesh list
after the first. -/
theorem load_idempotent (m : AssetModel) (i j : Option AIScene)
    (h : (m.load i).2 = none) :
    (m.load i).1.m_loaded = true ∧
    (m.load i).1.load j = ((m.load i).1, none) := by
  cases hl : m.m_loaded with
  | true =>
      have h1 : m.load i = (m, none) := by simp [AssetModel.load, hl]
      rw [h1]
      exact ⟨hl, by simp [AssetModel.load, hl]⟩
  | false =>
      rcases hlm : load_model m i with ⟨m', e⟩
      rcases e with _ | err
      · have h1 : m.load i = ({ m' with m_loaded := true }, none) := by
          simp [AssetModel.load, hl, hlm]
        rw [h1]
        exact ⟨rfl, by simp [AssetModel.load]⟩
      · exfalso
        have h1 : m.load i = (m', some err) := by
          simp [AssetModel.load, hl, hlm]
        rw [h1] at h
        simp at h

/-- Witness for C4: a successful load over a concrete scene followed by
a second call with a null importer result — the second call returns the
loaded state unchanged. -/
theorem load_idempotent_witness :
    ((AssetModel.new "x/y.obj").load (some sharedTexScene)).1.load none =
      (((AssetModel.new "x/y.obj").load (some sharedTexScene)).1, none) :=
  (load_idempotent (AssetModel.new "x/y.obj") (some sharedTexScene) none
    (by decide)).2

/-! ## Texture cache lemmas (C2, C5) -/

theorem lookupTexture_eq_none {cache : List (String × TexInstance)} {p : String} :
    lookupTexture cache p = none ↔ p ∉ cache.map Prod.fst := by
  induction cache with
  | nil => simp [lookupTexture]
  | cons e rest ih =>
      rcases e with ⟨k, v⟩
      by_cases hk : k = p
      · subst hk; simp [lookupTexture]
      · simp only [lookupTexture, if_neg hk, List.map_cons, List.mem_cons, ih]
        constructor
        · intro h
          rintro (h1 | h1)
          · exact hk h1.symm
          · exact h h1
        · intro h h1
          exact h (Or.inr h1)

theorem lookupTexture_append_some {cache d : List (String × TexInstance)}
    {p : String} {t : TexInstance} (h : lookupTexture cache p = some t) :
    lookupTexture (cache ++ d) p = some t := by
  induction cache with
  | nil => simp [lookupTexture] at h
  | cons e rest ih =>
      rcases e with ⟨k, v⟩
      by_cases hk : k = p
      · simpa [lookupTexture, hk] using h
      · simp only [lookupTexture, hk, if_false, List.cons_append, if_neg hk] at h ⊢
        exact ih h

theorem lookupTexture_append_none {cache d : List (String × TexInstance)}
    {p : String} (h : lookupTexture cache p = none) :
    lookupTexture (cache ++ d) p = lookupTexture d p := by
  induction cache with
  | nil => simp
  | cons e rest ih =>
      rcases e with ⟨k, v⟩
      by_cases hk : k = p
      · simp [lookupTexture, hk] at h
      · simp only [lookupTexture, hk, if_false, List.cons_append, if_neg hk] at h ⊢
        exact ih h

theorem lookupTexture_mem {cache : List (String × TexInstance)} {p : String}
    {t : TexInstance} (h : lookupTexture cache p = some t) : (p, t) ∈ cache := by
  induction cache with
  | nil => simp [lookupTexture] at h
  | cons e rest ih =>
      rcases e with ⟨k, v⟩
      by_cases hk : k = p
      · subst hk
        simp [lookupTexture] at h
        subst h
        exact List.mem_cons_self _ _
      · simp only [lookupTexture, if_neg hk] at h
        exact List.mem_cons_of_mem _ (ih h)

theorem CacheExtends.refl (m : AssetModel) : CacheExtends m m :=
  ⟨⟨[], by simp⟩, rfl, rfl⟩

theorem CacheExtends.trans {a b c : AssetModel}
    (h1 : CacheExtends a b) (h2 : CacheExtends b c) : CacheExtends a c := by
  obtain ⟨⟨e1, he1⟩, hp1, hq1⟩ := h1
  obtain ⟨⟨e2, he2⟩, hp2, hq2⟩ := h2
  exact ⟨⟨e1 ++ e2, by rw [he2, he1, List.append_assoc]⟩,
    hp2.trans hp1, hq2.trans hq1⟩

theorem texMiss_fields (m : AssetModel) (p : String) :
    (texMiss m p).2.path = p ∧
    (texMiss m p).2.fullpath = fsJoin m.m_parentdir p ∧
    (texMiss m p).1.m_loaded_textures
      = m.m_loaded_textures ++ [(p, (texMiss m p).2)] ∧
    (texMiss m p).1.imageLoads = m.imageLoads ++ [(texMiss m p).2.fullpath] ∧
    (texMiss m p).1.m_parentdir = m.m_parentdir ∧
    (texMiss m p).1.m_path = m.m_path ∧
    (texMiss m p).1.m_meshes = m.m_meshes :=
  ⟨rfl, rfl, rfl, rfl, rfl, rfl, rfl⟩

theorem texMiss_cacheWF {m : AssetModel} (p : String) (hwf : CacheWF m)
    (hp : p ∉ m.m_loaded_textures.map Prod.fst) : CacheWF (texMiss m p).1 := by
  obtain ⟨hnodup, hloads, hentries⟩ := hwf
  refine ⟨?_, ?_, ?_⟩
  · rw [(texMiss_fields m p).2.2.1, List.map_append]
    simp only [List.map_cons, List.map_nil]
    simp [List.nodup_append, hnodup, hp]
  · rw [(texMiss_fields m p).2.2.2.1, (texMiss_fields m p).2.2.1,
      List.map_append, hloads]
    simp
  · rw [(texMiss_fields m p).2.2.1]
    intro e he
    rcases List.mem_append.mp he with he | he
    · rw [(texMiss_fields m p).2.2.2.2.1]
      exact hentries e he
    · simp only [List.mem_singleton] at he
      subst he
      exact ⟨(texMiss_fields m p).1,
        by rw [(texMiss_fields m p).2.2.2.2.1]; exact (texMiss_fields m p).2.1⟩

theorem texMiss_lookup {m : AssetModel} (p : String)
    (hlk : lookupTexture m.m_loaded_textures p = none) :
    lookupTexture (texMiss m p).1.m_loaded_textures p = some (texMiss m p).2 := by
  rw [(texMiss_fields m p).2.2.1, lookupTexture_append_none hlk]
  simp [lookupTexture]

theorem load_textures_wf (paths : List String) :
    ∀ (m : AssetModel) (acc : List TexInstance),
      CacheWF m →
      (∀ t ∈ acc, lookupTexture m.m_loaded_textures t.path = some t) →
      CacheWF (load_textures m paths acc).1 ∧
      CacheExtends m (load_textures m paths acc).1 ∧
      (load_textures m paths acc).1.m_meshes = m.m_meshes ∧
      ∀ t ∈ (load_textures m paths acc).2,
        lookupTexture (load_textures m paths acc).1.m_loaded_textures t.path
          = some t := by
  induction paths with
  | nil =>
      intro m acc hwf hacc
      exact ⟨hwf, CacheExtends.refl m, rfl, hacc⟩
  | cons p ps ih =>
      intro m acc hwf hacc
      cases hlk : lookupTexture m.m_loaded_textures p with
      | some inst =>
          have hinstpath : inst.path = p :=
            (hwf.2.2 _ (lookupTexture_mem hlk)).1
          have hacc' : ∀ t ∈ acc ++ [inst],
              lookupTexture m.m_loaded_textures t.path = some t := by
            intro t ht
            rcases List.mem_append.mp ht with ht | ht
            · exact hacc t ht
            · simp only [List.mem_singleton] at ht
              subst ht
              rw [hinstpath]
              exact hlk
          have hrec := ih m (acc ++ [inst]) hwf hacc'
          simpa only [load_textures, hlk] using hrec
      | none =>
          have hp : p ∉ m.m_loaded_textures.map Prod.fst :=
            lookupTexture_eq_none.mp hlk
          have hwf' : CacheWF (texMiss m p).1 := texMiss_cacheWF p hwf hp
          have hacc' : ∀ t ∈ acc ++ [(texMiss m p).2],
              lookupTexture (texMiss m p).1.m_loaded_textures t.path
                = some t := by
            intro t ht
            rcases List.mem_append.mp ht with ht | ht
            · rw [(texMiss_fields m p).2.2.1]
              exact lookupTexture_append_some (hacc t ht)
            · simp only [List.mem_singleton] at ht
              subst ht
              rw [(texMiss_fields m p).1]
              exact texMiss_lookup p hlk
          have hrec := ih (texMiss m p).1 (acc ++ [(texMiss m p).2]) hwf' hacc'
          have hext : CacheExtends m (texMiss m p).1 :=
            ⟨⟨[(p, (texMiss m p).2)], (texMiss_fields m p).2.2.1⟩,
             (texMiss_fields m p).2.2.2.2.1, (texMiss_fields m p).2.2.2.2.2.1⟩
          simp only [load_textures, hlk]
          exact ⟨hrec.1, CacheExtends.trans hext hrec.2.1,
            hrec.2.2.1.trans (texMiss_fields m p).2.2.2.2.2.2, hrec.2.2.2⟩

theorem collect_textures_wf (scene : AIScene) (rm : AIMesh) (m : AssetModel)
    (hwf : CacheWF m) :
    CacheWF (collect_textures scene rm m).1 ∧
    CacheExtends m (collect_textures scene rm m).1 ∧
    (collect_textures scene rm m).1.m_meshes = m.m_meshes ∧
    ∀ t ∈ (collect_textures scene rm m).2,
      lookupTexture (collect_textures scene rm m).1.m_loaded_textures t.path
        = some t := by
  by_cases hmi : rm.mMaterialIndex > 0
  · simp only [collect_textures, if_pos hmi]
    have h1 := load_textures_wf
      (scene.mMaterials.getD rm.mMaterialIndex emptyAIMaterial).diffuse m []
      hwf (by simp)
    have h2 := load_textures_wf
      (scene.mMaterials.getD rm.mMaterialIndex emptyAIMaterial).specular
      (load_textures m
        (scene.mMaterials.getD rm.mMaterialIndex emptyAIMaterial).diffuse []).1
      (load_textures m
        (scene.mMaterials.getD rm.mMaterialIndex emptyAIMaterial).diffuse []).2
      h1.1 h1.2.2.2
    exact ⟨h2.1, CacheExtends.trans h1.2.1 h2.2.1,
      h2.2.2.1.trans h1.2.2.1, h2.2.2.2⟩
  · simp only [collect_textures, if_neg hmi]
    exact ⟨hwf, CacheExtends.refl m, by simp, by simp⟩

theorem process_mesh_wf (scene : AIScene) (rm : AIMesh) (m : AssetModel)
    (hwf : CacheWF m) :
    CacheWF (process_mesh scene rm m).1 ∧
    CacheExtends m (process_mesh scene rm m).1 ∧
    (process_mesh scene rm m).1.m_meshes = m.m_meshes ∧
    (∀ t ∈ (process_mesh scene rm m).2.m_textures,
      lookupTexture (process_mesh scene rm m).1.m_loaded_textures t.path
        = some t) ∧
    meshGeo (process_mesh scene rm m).2
      = (rm.mNumVertices, (collect_indices rm).length) := by
  have hc := collect_textures_wf scene rm m hwf
  have hf := meshConstruct_fields (collect_vertices rm) (collect_indices rm)
    (collect_textures scene rm m).2 (collect_textures scene rm m).1.glNext
  refine ⟨hc.1, hc.2.1, hc.2.2.1, ?_, ?_⟩
  · intro t ht
    apply hc.2.2.2
    rw [show (process_mesh scene rm m).2
        = (meshConstruct (collect_vertices rm) (collect_indices rm)
            (collect_textures scene rm m).2
            (collect_textures scene rm m).1.glNext).1 from rfl, hf.1] at ht
    exact ht
  · rw [show (process_mesh scene rm m).2
        = (meshConstruct (collect_vertices rm) (collect_indices rm)
            (collect_textures scene rm m).2
            (collect_textures scene rm m).1.glNext).1 from rfl]
    simp only [meshGeo, hf.2.1, hf.2.2.1]
    simp [collect_vertices]

theorem process_meshes_wf (scene : AIScene) (idxs : List Nat) :
    ∀ m : AssetModel, CacheWF m → MeshesWF m →
      CacheWF (process_meshes scene idxs m) ∧
      MeshesWF (process_meshes scene idxs m) ∧
      CacheExtends m (process_meshes scene idxs m) ∧
      (process_meshes scene idxs m).m_meshes.map meshGeo
        = m.m_meshes.map meshGeo ++ idxs.map (specRawGeo scene) := by
  induction idxs with
  | nil =>
      intro m hc hm
      exact ⟨hc, hm, CacheExtends.refl m, by simp [process_meshes]⟩
  | cons i rest ih =>
      intro m hc hm
      have hpm := process_mesh_wf scene (scene.mMeshes.getD i emptyAIMesh) m hc
      have hmeshes : (pushMesh (process_mesh scene (scene.mMeshes.getD i emptyAIMesh) m).1
            (process_mesh scene (scene.mMeshes.getD i emptyAIMesh) m).2).m_meshes
          = m.m_meshes ++ [(process_mesh scene (scene.mMeshes.getD i emptyAIMesh) m).2] := by
        show (process_mesh scene (scene.mMeshes.getD i emptyAIMesh) m).1.m_meshes
            ++ [(process_mesh scene (scene.mMeshes.getD i emptyAIMesh) m).2]
          = m.m_meshes ++ [(process_mesh scene (scene.mMeshes.getD i emptyAIMesh) m).2]
        rw [hpm.2.2.1]
      have hc1 : CacheWF (pushMesh (process_mesh scene (scene.mMeshes.getD i emptyAIMesh) m).1
          (process_mesh scene (scene.mMeshes.getD i emptyAIMesh) m).2) := hpm.1
      have hm1 : MeshesWF (pushMesh (process_mesh scene (scene.mMeshes.getD i emptyAIMesh) m).1
          (process_mesh scene (scene.mMeshes.getD i emptyAIMesh) m).2) := by
        intro md hmd t ht
        rw [hmeshes] at hmd
        show lookupTexture
          (process_mesh scene (scene.mMeshes.getD i emptyAIMesh) m).1.m_loaded_textures
          t.path = some t
        rcases List.mem_append.mp hmd with hmd | hmd
        · obtain ⟨⟨ext, hext⟩, _, _⟩ := hpm.2.1
          rw [hext]
          exact lookupTexture_append_some (hm md hmd t ht)
        · simp only [List.mem_singleton] at hmd
          subst hmd
          exact hpm.2.2.2.1 t ht
      have hrec := ih _ hc1 hm1
      have hstep : CacheExtends m
          (pushMesh (process_mesh scene (scene.mMeshes.getD i emptyAIMesh) m).1
            (process_mesh scene (scene.mMeshes.getD i emptyAIMesh) m).2) := hpm.2.1
      simp only [process_meshes]
      refine ⟨hrec.1, hrec.2.1, CacheExtends.trans hstep hrec.2.2.1, ?_⟩
      rw [hrec.2.2.2, hmeshes, List.map_append, List.map_cons]
      rw [hpm.2.2.2.2]
      simp [specRawGeo, collect_indices]

mutual

theorem process_node_wf (scene : AIScene) : (n : AINode) → ∀ m : AssetModel,
    CacheWF m → MeshesWF m →
    CacheWF (process_node scene n m) ∧ MeshesWF (process_node scene n m) ∧
    CacheExtends m (process_node scene n m) ∧
    (process_node scene n m).m_meshes.map meshGeo
      = m.m_meshes.map meshGeo ++ (specPreorder n).map (specRawGeo scene)
  | .node meshIndices children => by
      intro m hc hm
      have h1 := process_meshes_wf scene meshIndices m hc hm
      have h2 := process_children_wf scene children
        (process_meshes scene meshIndices m) h1.1 h1.2.1
      simp only [process_node]
      refine ⟨h2.1, h2.2.1, CacheExtends.trans h1.2.2.1 h2.2.2.1, ?_⟩
      rw [h2.2.2.2, h1.2.2.2]
      simp [specPreorder, List.append_assoc]

theorem process_children_wf (scene : AIScene) : (l : AINodeList) →
    ∀ m : AssetModel, CacheWF m → MeshesWF m →
    CacheWF (process_children scene l m) ∧ MeshesWF (process_children scene l m) ∧
    CacheExtends m (process_children scene l m) ∧
    (process_children scene l m).m_meshes.map meshGeo
      = m.m_meshes.map meshGeo ++ (specPreorderList l).map (specRawGeo scene)
  | .nil => by
      intro m hc hm
      simp only [process_children]
      exact ⟨hc, hm, CacheExtends.refl m, by simp [specPreorderList]⟩
  | .cons c cs => by
      intro m hc hm
      have h1 := process_node_wf scene c m hc hm
      have h2 := process_children_wf scene cs (process_node scene c m) h1.1 h1.2.1
      simp only [process_children]
      refine ⟨h2.1, h2.2.1, CacheExtends.trans h1.2.2.1 h2.2.2.1, ?_⟩
      rw [h2.2.2.2, h1.2.2.2]
      simp [specPreorderList, List.append_assoc]

end

theorem cacheWF_new (path : String) : CacheWF (AssetModel.new path) :=
  ⟨by simp [AssetModel.new], rfl, by simp [AssetModel.new]⟩

theorem meshesWF_new (path : String) : MeshesWF (AssetModel.new path) := by
  intro md hmd
  simp [AssetModel.new] at hmd

/-- Case analysis of `AssetModel::load` on a fresh model: either the
importer result is usable and the load is the traversal from the root
with the loaded flag set, or the load fails leaving the fresh state. -/
theorem asset_load_cases (path : String) (imported : Option AIScene) :
    (∃ scene root, imported = some scene ∧
      scene.mFlags ≠ AI_SCENE_FLAGS_INCOMPLETE ∧ scene.mRootNode = some root ∧
      (AssetModel.new path).load imported
        = ({ process_node scene root (AssetModel.new path)
             with m_loaded := true }, none)) ∨
    (AssetModel.new path).load imported
      = (AssetModel.new path,
         some { path := path, message := "Cannot load model." }) := by
  rcases imported with _ | scene
  · right
    simp [AssetModel.load, load_model, AssetModel.new]
  · by_cases hf : scene.mFlags = AI_SCENE_FLAGS_INCOMPLETE
    · right
      simp [AssetModel.load, load_model, AssetModel.new, hf]
    · rcases hr : scene.mRootNode with _ | root
      · right
        simp [AssetModel.load, load_model, AssetModel.new, hf, hr]
      · left
        exact ⟨scene, root, rfl, hf, hr,
          by simp [AssetModel.load, load_model, AssetModel.new, hf, hr]⟩

theorem asset_load_wf (path : String) (imported : Option AIScene) :
    CacheWF ((AssetModel.new path).load imported).1 ∧
    MeshesWF ((AssetModel.new path).load imported).1 := by
  rcases asset_load_cases path imported with ⟨scene, root, _, _, _, hload⟩ | hload
  · rw [hload]
    have h := process_node_wf scene root (AssetModel.new path)
      (cacheWF_new path) (meshesWF_new path)
    exact ⟨h.1, h.2.1⟩
  · rw [hload]
    exact ⟨cacheWF_new path, meshesWF_new path⟩

/-! ## Pre-order traversal (C5) -/

/-- Claim C5: for every successfully loaded scene, the model's mesh
list, observed through each mesh's recorded vertex and index counts,
equals the pre-order depth-first traversal of the node tree — all
meshes of a node in index order before its children, each child's
subtree fully before the next sibling. -/
theorem mesh_list_preorder (path : String) (scene : AIScene) (root : AINode)
    (hf : scene.mFlags ≠ AI_SCENE_FLAGS_INCOMPLETE)
    (hr : scene.mRootNode = some root) :
    ((AssetModel.new path).load (some scene)).1.m_meshes.map meshGeo
      = (specPreorder root).map (specRawGeo scene) := by
  have hload : (AssetModel.new path).load (some scene)
      = ({ process_node scene root (AssetModel.new path)
           with m_loaded := true }, none) := by
    simp [AssetModel.load, load_model, AssetModel.new, hf, hr]
  rw [hload]
  have h := (process_node_wf scene root (AssetModel.new path)
    (cacheWF_new path) (meshesWF_new path)).2.2.2
  show (process_node scene root (AssetModel.new path)).m_meshes.map meshGeo
    = (specPreorder root).map (specRawGeo scene)
  rw [h]
  simp [AssetModel.new]

/-- Witness for C5 at the spec's example: a root with two meshes and one
child with one mesh yields the geometry list
[root.mesh0, root.mesh1, child.mesh0]. -/
theorem mesh_list_preorder_witness :
    ((AssetModel.new "m/root.obj").load (some preorderScene)).1.m_meshes.map meshGeo
      = [(4, 3), (5, 6), (6, 3)] := by
  have h := mesh_list_preorder "m/root.obj" preorderScene
    (.node [0, 1] (.cons (.node [2] .nil) .nil)) (by decide) rfl
  rw [h]
  decide

/-! ## Texture sharing and single load (C2) -/

theorem string_append_left_cancel {s t u : String} (h : s ++ t = s ++ u) :
    t = u := by
  cases s with | mk a => cases t with | mk b => cases u with | mk c =>
  simp only [String.ext_iff] at h ⊢
  simpa using h

theorem fsJoin_inj (base : String) : Function.Injective (fsJoin base) := by
  intro p q h
  unfold fsJoin at h
  exact string_append_left_cancel h

/-- Claim C2: after any load of a fresh `AssetModel`, the per-model
texture cache holds at most one instance per path (keys are pairwise
distinct); the image reads performed are exactly the cached instances'
paths, each read exactly once; every texture held by any built mesh is
the cache's instance for its path, and its image was read exactly once;
hence two meshes referencing the same texture path hold the identical
shared instance. -/
theorem texture_cache_single_instance (path : String)
    (imported : Option AIScene) :
    ((((AssetModel.new path).load imported).1.m_loaded_textures.map
      Prod.fst).Nodup) ∧
    (((AssetModel.new path).load imported).1.imageLoads
      = ((AssetModel.new path).load imported).1.m_loaded_textures.map
          fun e => e.2.fullpath) ∧
    ((((AssetModel.new path).load imported).1.imageLoads).Nodup) ∧
    (∀ md ∈ ((AssetModel.new path).load imported).1.m_meshes,
      ∀ t ∈ md.m_textures,
        lookupTexture
            ((AssetModel.new path).load imported).1.m_loaded_textures t.path
          = some t ∧
        (((AssetModel.new path).load imported).1.imageLoads).count t.fullpath
          = 1) ∧
    (∀ md1 ∈ ((AssetModel.new path).load imported).1.m_meshes,
      ∀ md2 ∈ ((AssetModel.new path).load imported).1.m_meshes,
      ∀ t1 ∈ md1.m_textures, ∀ t2 ∈ md2.m_textures,
        t1.path = t2.path → t1 = t2) := by
  obtain ⟨⟨hnodup, hloads, hentries⟩, hmesh⟩ := asset_load_wf path imported
  have hmapeq : ((AssetModel.new path).load imported).1.m_loaded_textures.map
        (fun e => e.2.fullpath)
      = (((AssetModel.new path).load imported).1.m_loaded_textures.map
          Prod.fst).map
          (fsJoin ((AssetModel.new path).load imported).1.m_parentdir) := by
    rw [List.map_map]
    exact List.map_congr_left fun e he => (hentries e he).2
  have hloadsnodup : (((AssetModel.new path).load imported).1.imageLoads).Nodup := by
    rw [hloads, hmapeq]
    exact hnodup.map (fsJoin_inj _)
  have hone : ∀ md ∈ ((AssetModel.new path).load imported).1.m_meshes,
      ∀ t ∈ md.m_textures,
        lookupTexture
            ((AssetModel.new path).load imported).1.m_loaded_textures t.path
          = some t ∧
        (((AssetModel.new path).load imported).1.imageLoads).count t.fullpath
          = 1 := by
    intro md hmd t ht
    have hlk := hmesh md hmd t ht
    have hmem := lookupTexture_mem hlk
    refine ⟨hlk, ?_⟩
    have hin : t.fullpath ∈
        ((AssetModel.new path).load imported).1.imageLoads := by
      rw [hloads]
      exact List.mem_map_of_mem (fun e => e.2.fullpath) hmem
    exact List.count_eq_one_of_mem hloadsnodup hin
  refine ⟨hnodup, hloads, hloadsnodup, hone, ?_⟩
  intro md1 hmd1 md2 hmd2 t1 ht1 t2 ht2 hpath
  have h1 := (hone md1 hmd1 t1 ht1).1
  have h2 := (hone md2 hmd2 t2 ht2).1
  rw [hpath] at h1
  rw [h1] at h2
  exact (Option.some.injEq _ _).mp h2

/-- Witness for C2: over `sharedTexScene`, whose two sub-meshes
reference the diffuse path "tex.png" through different materials, the
two built meshes hold the identical instance and the image behind it is
read exactly once. -/
theorem texture_cache_single_instance_witness :
    (sharedTexModel.m_meshes.getD 0 emptyMeshData).m_textures.getD 0
        emptyTexInstance
      = (sharedTexModel.m_meshes.getD 1 emptyMeshData).m_textures.getD 0
          emptyTexInstance ∧
    sharedTexModel.imageLoads.count (fsJoin "assets" "tex.png") = 1 := by
  have h := texture_cache_single_instance "assets/model.obj"
    (some sharedTexScene)
  constructor
  · exact h.2.2.2.2
      (sharedTexModel.m_meshes.getD 0 emptyMeshData) (by decide)
      (sharedTexModel.m_meshes.getD 1 emptyMeshData) (by decide)
      ((sharedTexModel.m_meshes.getD 0 emptyMeshData).m_textures.getD 0
        emptyTexInstance) (by decide)
      ((sharedTexModel.m_meshes.getD 1 emptyMeshData).m_textures.getD 0
        emptyTexInstance) (by decide)
      (by decide)
  · have hc := (h.2.2.2.1
      (sharedTexModel.m_meshes.getD 0 emptyMeshData) (by decide)
      ((sharedTexModel.m_meshes.getD 0 emptyMeshData).m_textures.getD 0
        emptyTexInstance) (by decide)).2
    have he : ((sharedTexModel.m_meshes.getD 0 emptyMeshData).m_textures.getD 0
        emptyTexInstance).fullpath = fsJoin "assets" "tex.png" := by decide
    rw [← he]
    exact hc

end crudegl
